import Mathlib

/-!
Shallow embedding of the `fruitdata` CLI (src/main.rs, src/catalog.rs,
src/models.rs, src/lib.rs).

Modelling conventions:
- Rust `String` values (fruit names, file paths) are modelled as `List Char`.
  `str::trim` and `eq_ignore_ascii_case` are reproduced at codepoint level:
  trimming removes the Unicode `White_Space` codepoints (the set Rust's
  `char::is_whitespace` uses), and ASCII-case-insensitive equality lowers
  exactly the codepoints 65..90.
- The `f32` dimensions are modelled as exact rationals `ℚ`: every comparison
  in the program (`<= 0.0`) is exact on floats, and every concrete product the
  specification mentions (e.g. 4.0 * 2.5 * 1.5) is computed exactly by `f32`,
  so the rational model agrees with the float semantics on everything stated
  here (float rounding and NaN are outside the model).
- The effect of one process invocation is a pure `DispatchResult`: the final
  in-memory catalogue, whether `save_catalogue` was invoked, the list of
  stdout messages (one constructor per `println!` in main.rs), and whether the
  process exits successfully. The boolean `saveOk` parameter stands for the
  outcome of the `save_catalogue` call on paths that reach one (the `?` in
  `save_catalogue(&fruits, &file_path)?` makes a failed save abort before the
  final `println!` and exit nonzero).
- The persistent store is modelled at the JSON-document level: a file system
  maps a path to the parsed JSON value of its content; `serde_json`'s
  text-to-`Value` round trip is the library's own guarantee and is the trusted
  layer below this model.
-/

namespace Fruitdata

/-- ASCII lowercasing on codepoints, as Rust's `to_ascii_lowercase`:
codepoints 65..90 (`'A'..'Z'`) are shifted by 32, everything else is fixed. -/
def lowerCodepoint (n : Nat) : Nat :=
  if 65 ≤ n ∧ n ≤ 90 then n + 32 else n

/-- The Unicode `White_Space` codepoints, the set recognised by Rust's
`char::is_whitespace` and hence trimmed by `str::trim`. -/
def rustWhitespaceCodes : List Nat :=
  [0x09, 0x0A, 0x0B, 0x0C, 0x0D, 0x20, 0x85, 0xA0, 0x1680,
   0x2000, 0x2001, 0x2002, 0x2003, 0x2004, 0x2005, 0x2006, 0x2007, 0x2008,
   0x2009, 0x200A, 0x2028, 0x2029, 0x202F, 0x205F, 0x3000]

/-- Rust's `char::is_whitespace`. -/
def isRustWhitespace (c : Char) : Bool :=
  decide (c.toNat ∈ rustWhitespaceCodes)

/-- One character of Rust's `eq_ignore_ascii_case`: equality after ASCII
lowercasing. -/
def eqIgnoreAsciiCaseChar (a b : Char) : Bool :=
  lowerCodepoint a.toNat == lowerCodepoint b.toNat

/-- Rust's `str::eq_ignore_ascii_case`: same length, and pointwise equal after
ASCII lowercasing. -/
def eqIgnoreAsciiCase : List Char → List Char → Bool
  | [], [] => true
  | a :: as, b :: bs => eqIgnoreAsciiCaseChar a b && eqIgnoreAsciiCase as bs
  | _, _ => false

/-- Rust's `str::trim_start`: drop leading whitespace. -/
def trimStart (s : List Char) : List Char :=
  s.dropWhile isRustWhitespace

/-- Rust's `str::trim_end`: drop trailing whitespace. -/
def trimEnd (s : List Char) : List Char :=
  (s.reverse.dropWhile isRustWhitespace).reverse

/-- Rust's `str::trim`: drop leading and trailing whitespace. -/
def trim (s : List Char) : List Char :=
  trimEnd (trimStart s)

/-- models.rs: the `FruitDimensions` struct — a name and three dimensions. -/
structure FruitDimensions where
  name : List Char
  length : ℚ
  width : ℚ
  height : ℚ
deriving DecidableEq, Repr

/-- models.rs: `FruitDimensions::volume`, `self.length * self.width *
self.height` — no validation, defined for any inputs. -/
def FruitDimensions.volume (f : FruitDimensions) : ℚ :=
  f.length * f.width * f.height

/-- catalog.rs: `initialise_fruit_catalogue`, the hardcoded default catalogue
of four fruits (dimensions 2.5, 1.5, 3.5 written as 5/2, 3/2, 7/2). -/
def initialise_fruit_catalogue : List FruitDimensions :=
  [⟨['O', 'r', 'a', 'n', 'g', 'e'], 5, 3, 2⟩,
   ⟨['A', 'p', 'p', 'l', 'e'], 4, 5/2, 3/2⟩,
   ⟨['B', 'a', 'n', 'a', 'n', 'a'], 6, 7/2, 5/2⟩,
   ⟨['P', 'e', 'a', 'r'], 6, 7/2, 5/2⟩]

/-- One stdout message of main.rs, one constructor per `println!` shape:
the list header, a listed name, `display_fruit_info` (name, the three
dimensions, and the computed volume), "Fruit '{}' not found.",
"Name must not be empty.", "Dimensions must be positive numbers.",
"Fruit '{}' already exists.", "Added '{}'.", and the remove command's
success and not-found reports. -/
inductive Message where
  | availableFruitsHeader
  | fruitName (name : List Char)
  | fruitInfo (name : List Char) (length width height volume : ℚ)
  | fruitNotFound (name : List Char)
  | nameMustNotBeEmpty
  | dimensionsMustBePositive
  | fruitAlreadyExists (name : List Char)
  | addedFruit (name : List Char)
  | removedFruit (name : List Char)
  | removeNotFound (name : List Char)
deriving DecidableEq, Repr

/-- main.rs: the `Commands` subcommand enum. -/
inductive Commands where
  | list
  | get (name : List Char)
  | add (name : List Char) (length width height : ℚ)
  | remove (name : List Char)
deriving DecidableEq, Repr

/-- The observable effect of dispatching one command: the final in-memory
catalogue, whether `save_catalogue` was invoked, the stdout messages in
order, and whether the invocation returns `Ok(())` (exit code 0). -/
structure DispatchResult where
  fruits : List FruitDimensions
  saved : Bool
  messages : List Message
  exitOk : Bool
deriving DecidableEq, Repr

/-- main.rs: `display_fruit_info` — prints name, the three dimensions, and
`fruit.volume()`. -/
def display_fruit_info (f : FruitDimensions) : Message :=
  .fruitInfo f.name f.length f.width f.height f.volume

/-- main.rs: the command dispatch (the `match &cli.command` block), as a pure
function of the loaded catalogue. `saveOk` is the outcome of the
`save_catalogue` call on the paths that reach one; a failed save aborts via
`?` before the final success `println!` and makes the process exit nonzero.

The tail of the `Commands::Remove` arm (after computing `name_trimmed` and
`before = fruits.len()`) is absent from src/main.rs, which breaks off
mid-comment. That part is modelled from the spec: remove all items whose name
matches case-insensitively (`retain` keeps the non-matching ones); if the
count before and after differ, persist and report success, else report
not-found. -/
def dispatch (cmd : Commands) (fruits : List FruitDimensions) (saveOk : Bool) :
    DispatchResult :=
  match cmd with
  | .list =>
      ⟨fruits, false,
        .availableFruitsHeader :: fruits.map (fun f => .fruitName f.name), true⟩
  | .get name =>
      match fruits.find? (fun f => eqIgnoreAsciiCase f.name name) with
      | some fruit => ⟨fruits, false, [display_fruit_info fruit], true⟩
      | none => ⟨fruits, false, [.fruitNotFound name], true⟩
  | .add name length width height =>
      let name_trimmed := trim name
      if name_trimmed.isEmpty then
        ⟨fruits, false, [.nameMustNotBeEmpty], true⟩
      else if length ≤ 0 ∨ width ≤ 0 ∨ height ≤ 0 then
        ⟨fruits, false, [.dimensionsMustBePositive], true⟩
      else if fruits.any (fun f => eqIgnoreAsciiCase f.name name_trimmed) then
        ⟨fruits, false, [.fruitAlreadyExists name_trimmed], true⟩
      else
        let fruit : FruitDimensions := ⟨name_trimmed, length, width, height⟩
        let fruits2 := fruits ++ [fruit]
        if saveOk then ⟨fruits2, true, [.addedFruit name_trimmed], true⟩
        else ⟨fruits2, true, [], false⟩
  | .remove name =>
      let name_trimmed := trim name
      if name_trimmed.isEmpty then
        ⟨fruits, false, [.nameMustNotBeEmpty], true⟩
      else
        let remaining :=
          fruits.filter (fun f => !eqIgnoreAsciiCase f.name name_trimmed)
        if remaining.length ≠ fruits.length then
          if saveOk then ⟨remaining, true, [.removedFruit name_trimmed], true⟩
          else ⟨remaining, true, [], false⟩
        else ⟨fruits, false, [.removeNotFound name_trimmed], true⟩

/-- The spec's load-failure taxonomy: `NotFound` / `IOError` / `ParseError`
(main.rs only sees a boxed error and treats all alike). -/
inductive LoadError where
  | notFound
  | ioError
  | parseError
deriving DecidableEq, Repr

/-- The observable effect of one full `main` invocation: whether the
load-fallback warning went to stderr, and the dispatch result. -/
structure MainResult where
  warned : Bool
  result : DispatchResult
deriving DecidableEq, Repr

/-- main.rs: STEP 3 and STEP 4 — `match load_catalogue(..)` falls back to
`initialise_fruit_catalogue()` with a stderr warning on any load error, then
dispatches the command. -/
def runMain (loadResult : Except LoadError (List FruitDimensions))
    (cmd : Commands) (saveOk : Bool) : MainResult :=
  match loadResult with
  | .ok f => ⟨false, dispatch cmd f saveOk⟩
  | .error _ => ⟨true, dispatch cmd initialise_fruit_catalogue saveOk⟩

/-- JSON documents, the data model `serde_json` parses and prints. -/
inductive Json where
  | null
  | bool (b : Bool)
  | num (q : ℚ)
  | str (s : List Char)
  | arr (elements : List Json)
  | obj (fields : List (List Char × Json))

/-- The JSON object key "name". -/
def nameKey : List Char := ['n', 'a', 'm', 'e']

/-- The JSON object key "length". -/
def lengthKey : List Char := ['l', 'e', 'n', 'g', 't', 'h']

/-- The JSON object key "width". -/
def widthKey : List Char := ['w', 'i', 'd', 't', 'h']

/-- The JSON object key "height". -/
def heightKey : List Char := ['h', 'e', 'i', 'g', 'h', 't']

/-- The derived `Serialize` for `FruitDimensions`: an object with the four
fields in declaration order. -/
def fruitToJson (f : FruitDimensions) : Json :=
  .obj [(nameKey, .str f.name), (lengthKey, .num f.length),
        (widthKey, .num f.width), (heightKey, .num f.height)]

/-- Field lookup in a JSON object. -/
def getField (fields : List (List Char × Json)) (key : List Char) :
    Option Json :=
  (fields.find? (fun p => p.1 == key)).map Prod.snd

/-- The derived `Deserialize` for `FruitDimensions`: requires a JSON object
with a string "name" and numeric "length"/"width"/"height"; anything else
(missing or mis-typed field, non-object) is a parse error. -/
def fruitFromJson (j : Json) : Option FruitDimensions :=
  match j with
  | .obj fields =>
      match getField fields nameKey, getField fields lengthKey,
          getField fields widthKey, getField fields heightKey with
      | some (.str n), some (.num l), some (.num w), some (.num h) =>
          some ⟨n, l, w, h⟩
      | _, _, _, _ => none
  | _ => none

/-- Deserializing a list of fruits: element by element, failing on the first
bad element (serde's `Vec` deserialization). -/
def fruitsFromJsonList : List Json → Option (List FruitDimensions)
  | [] => some []
  | j :: js =>
      match fruitFromJson j, fruitsFromJsonList js with
      | some f, some fs => some (f :: fs)
      | _, _ => none

/-- Serializing the catalogue: a JSON array of fruit objects. -/
def catalogueToJson (fruits : List FruitDimensions) : Json :=
  .arr (fruits.map fruitToJson)

/-- Deserializing the catalogue: requires a JSON array of fruit objects. -/
def catalogueFromJson (j : Json) : Option (List FruitDimensions) :=
  match j with
  | .arr xs => fruitsFromJsonList xs
  | _ => none

/-- The file system at the JSON-document level: each path maps to the parsed
JSON value of the file's content, or `none` when no file exists there. -/
def FS : Type := List Char → Option Json

/-- catalog.rs: `load_catalogue` — read the file at `path` (error when it
does not exist) and parse it as a catalogue (error when it is not an array
of well-shaped fruit objects). -/
def load_catalogue (fs : FS) (path : List Char) :
    Except LoadError (List FruitDimensions) :=
  match fs path with
  | none => .error .notFound
  | some j =>
      match catalogueFromJson j with
      | some fruits => .ok fruits
      | none => .error .parseError

/-- catalog.rs: `save_catalogue` — serialize the catalogue and overwrite the
file at `path` in full (creating it if absent). -/
def save_catalogue (fruits : List FruitDimensions) (path : List Char)
    (fs : FS) : FS :=
  fun p => if p = path then some (catalogueToJson fruits) else fs p

/-- Case-insensitive uniqueness of the names in a catalogue: no two distinct
positions hold names that `eq_ignore_ascii_case` identifies. -/
def namesUnique (fruits : List FruitDimensions) : Prop :=
  fruits.Pairwise (fun a b => eqIgnoreAsciiCase a.name b.name = false)

instance instNamesUniqueDecidable (fruits : List FruitDimensions) :
    Decidable (namesUnique fruits) :=
  inferInstanceAs (Decidable (fruits.Pairwise
    (fun (a b : FruitDimensions) => eqIgnoreAsciiCase a.name b.name = false)))

/-- The codepoint key under which ASCII-case-insensitive comparison works:
`eqIgnoreAsciiCase` compares the images of the two strings under this map. -/
def lowerKey (c : Char) : Nat :=
  lowerCodepoint c.toNat

/-- ASCII lowercasing never moves a codepoint into or out of the whitespace
set: the source range 65..90 and the target range 97..122 are both disjoint
from the `White_Space` codepoints. -/
theorem lowerCodepoint_mem_whitespace (n : Nat) :
    lowerCodepoint n ∈ rustWhitespaceCodes ↔ n ∈ rustWhitespaceCodes := by
  by_cases h : 65 ≤ n ∧ n ≤ 90
  · rw [lowerCodepoint, if_pos h]
    simp only [rustWhitespaceCodes, List.mem_cons, List.not_mem_nil, or_false]
    omega
  · rw [lowerCodepoint, if_neg h]

/-- Characters identified by ASCII-case-insensitive comparison agree on being
whitespace. -/
theorem isRustWhitespace_eq_of_lowerKey_eq {a b : Char}
    (h : lowerKey a = lowerKey b) :
    isRustWhitespace a = isRustWhitespace b := by
  have hiff : a.toNat ∈ rustWhitespaceCodes ↔ b.toNat ∈ rustWhitespaceCodes :=
    (lowerCodepoint_mem_whitespace a.toNat).symm.trans
      (by rw [lowerKey, lowerKey] at h
          rw [h]
          exact lowerCodepoint_mem_whitespace b.toNat)
  rw [isRustWhitespace, isRustWhitespace]
  exact decide_eq_decide.mpr hiff

/-- `eq_ignore_ascii_case` holds exactly when the two strings agree after
codepoint-wise ASCII lowercasing. -/
theorem eqIgnoreAsciiCase_iff_map (a b : List Char) :
    eqIgnoreAsciiCase a b = true ↔ a.map lowerKey = b.map lowerKey := by
  induction a generalizing b with
  | nil => cases b <;> simp [eqIgnoreAsciiCase]
  | cons x xs ih =>
      cases b with
      | nil => simp [eqIgnoreAsciiCase]
      | cons y ys =>
          simp [eqIgnoreAsciiCase, eqIgnoreAsciiCaseChar, Bool.and_eq_true,
            beq_iff_eq, ih, lowerKey]

/-- A list that survives `dropWhile isRustWhitespace` unchanged transfers that
property to any list with the same lowercased codepoints. -/
theorem dropWhile_ws_self_of_map_eq {a b : List Char}
    (h : a.map lowerKey = b.map lowerKey)
    (ha : a.dropWhile isRustWhitespace = a) :
    b.dropWhile isRustWhitespace = b := by
  cases a with
  | nil =>
      cases b with
      | nil => rfl
      | cons y ys => simp at h
  | cons x xs =>
      cases b with
      | nil => simp at h
      | cons y ys =>
          simp only [List.map_cons, List.cons.injEq] at h
          have hws : isRustWhitespace x = isRustWhitespace y :=
            isRustWhitespace_eq_of_lowerKey_eq h.1
          have hx : isRustWhitespace x = false := by
            cases hxw : isRustWhitespace x with
            | false => rfl
            | true =>
                rw [List.dropWhile_cons, hxw] at ha
                simp only [if_true] at ha
                have hlen := congrArg List.length ha
                have hle := (List.dropWhile_sublist
                  (l := xs) (p := isRustWhitespace)).length_le
                simp only [List.length_cons] at hlen
                omega
          rw [List.dropWhile_cons, hws.symm.trans hx]
          simp

/-- `trim` leaves a string unchanged exactly when both one-sided trims do. -/
theorem trim_eq_self_iff (s : List Char) :
    trim s = s ↔ trimStart s = s ∧ trimEnd s = s := by
  constructor
  · intro h
    have hsub : List.Sublist (trimStart s) s := List.dropWhile_sublist _
    have h1 : (trimStart s).length ≤ s.length := hsub.length_le
    have h2 : (trim s).length ≤ (trimStart s).length := by
      rw [trim, trimEnd, List.length_reverse]
      have hsub2 : List.Sublist ((trimStart s).reverse.dropWhile isRustWhitespace)
          (trimStart s).reverse := List.dropWhile_sublist _
      simpa using hsub2.length_le
    have h3 : s.length ≤ (trimStart s).length :=
      le_trans (le_of_eq (congrArg List.length h.symm)) h2
    have hstart : trimStart s = s :=
      hsub.eq_of_length (Nat.le_antisymm h1 h3)
    rw [trim, hstart] at h
    exact ⟨hstart, h⟩
  · intro ⟨h1, h2⟩
    rw [trim, h1, h2]

/-- One-sided reformulation of `trimEnd s = s` on the reversed string. -/
theorem trimEnd_eq_self_iff (s : List Char) :
    trimEnd s = s ↔ s.reverse.dropWhile isRustWhitespace = s.reverse := by
  rw [trimEnd]
  constructor
  · intro h
    have h2 := congrArg List.reverse h
    rwa [List.reverse_reverse] at h2
  · intro h
    rw [h, List.reverse_reverse]

/-- Being whitespace-trimmed transfers along ASCII-case-insensitive equality:
the two strings have whitespace at exactly the same positions. -/
theorem trim_eq_self_transfer {a b : List Char}
    (h : a.map lowerKey = b.map lowerKey) (ha : trim a = a) : trim b = b := by
  obtain ⟨ha1, ha2⟩ := (trim_eq_self_iff a).1 ha
  have hrev : a.reverse.map lowerKey = b.reverse.map lowerKey := by
    rw [List.map_reverse, List.map_reverse, h]
  exact (trim_eq_self_iff b).2
    ⟨dropWhile_ws_self_of_map_eq h ha1,
     (trimEnd_eq_self_iff b).2
       (dropWhile_ws_self_of_map_eq hrev ((trimEnd_eq_self_iff a).1 ha2))⟩

/-- Deserializing a serialized fruit recovers it exactly. -/
theorem fruitFromJson_fruitToJson (f : FruitDimensions) :
    fruitFromJson (fruitToJson f) = some f := rfl

/-- Deserializing a serialized fruit list recovers it exactly. -/
theorem fruitsFromJsonList_map (l : List FruitDimensions) :
    fruitsFromJsonList (l.map fruitToJson) = some l := by
  induction l with
  | nil => rfl
  | cons f fs ih =>
      simp [List.map_cons, fruitsFromJsonList, fruitFromJson_fruitToJson, ih]

/-- C1: Add validates in exactly the order empty-name, dimension positivity,
duplicate: an empty trimmed name is rejected with the empty-name message
regardless of the other inputs; a non-positive dimension is rejected with the
dimension message whenever the name is nonempty; a case-insensitive duplicate
of the trimmed name is rejected with the duplicate message whenever the name
is nonempty and the dimensions are positive. Every rejection leaves the
catalogue unchanged, saves nothing, and exits successfully. -/
theorem add_validation_precedence (fruits : List FruitDimensions)
    (name : List Char) (length width height : ℚ) (saveOk : Bool) :
    ((trim name).isEmpty = true →
      dispatch (.add name length width height) fruits saveOk =
        ⟨fruits, false, [.nameMustNotBeEmpty], true⟩)
    ∧ ((trim name).isEmpty = false →
      (length ≤ 0 ∨ width ≤ 0 ∨ height ≤ 0) →
      dispatch (.add name length width height) fruits saveOk =
        ⟨fruits, false, [.dimensionsMustBePositive], true⟩)
    ∧ ((trim name).isEmpty = false →
      ¬(length ≤ 0 ∨ width ≤ 0 ∨ height ≤ 0) →
      fruits.any (fun f => eqIgnoreAsciiCase f.name (trim name)) = true →
      dispatch (.add name length width height) fruits saveOk =
        ⟨fruits, false, [.fruitAlreadyExists (trim name)], true⟩) := by
  refine ⟨fun h1 => ?_, fun h1 h2 => ?_, fun h1 h2 h3 => ?_⟩
  · simp [dispatch, h1]
  · simp [dispatch, h1, h2]
  · simp [dispatch, h1, h2, h3]

/-- C1 witness: `Add("  ", 0, 1, 1)` (empty name, and also a bad dimension)
reports the empty-name message; `Add("X", 0, 1, 1)` the dimension message;
`Add("aPPle", 1, 1, 1)` against a catalogue holding "Apple" the duplicate
message. -/
theorem add_validation_precedence_witness :
    (dispatch (.add [' ', ' '] 0 1 1) [⟨['A', 'p', 'p', 'l', 'e'], 4, 3, 2⟩]
        true =
      ⟨[⟨['A', 'p', 'p', 'l', 'e'], 4, 3, 2⟩], false,
       [.nameMustNotBeEmpty], true⟩)
    ∧ (dispatch (.add ['X'] 0 1 1) [⟨['A', 'p', 'p', 'l', 'e'], 4, 3, 2⟩]
        true =
      ⟨[⟨['A', 'p', 'p', 'l', 'e'], 4, 3, 2⟩], false,
       [.dimensionsMustBePositive], true⟩)
    ∧ (dispatch (.add ['a', 'P', 'P', 'l', 'e'] 1 1 1)
        [⟨['A', 'p', 'p', 'l', 'e'], 4, 3, 2⟩] true =
      ⟨[⟨['A', 'p', 'p', 'l', 'e'], 4, 3, 2⟩], false,
       [.fruitAlreadyExists ['a', 'P', 'P', 'l', 'e']], true⟩) :=
  ⟨(add_validation_precedence _ _ _ _ _ _).1 (by decide),
   (add_validation_precedence _ _ _ _ _ _).2.1 (by decide) (by decide),
   (add_validation_precedence _ _ _ _ _ _).2.2 (by decide) (by decide)
     (by decide)⟩

/-- C2: an Add that passes all three validations appends the new item, built
from the trimmed name and the given dimensions, at the end of the catalogue —
all previous items unchanged and in order — and invokes the save; with the
save succeeding it reports the added message and exits successfully. -/
theorem add_appends (fruits : List FruitDimensions) (name : List Char)
    (length width height : ℚ) (saveOk : Bool)
    (h1 : (trim name).isEmpty = false)
    (h2 : ¬(length ≤ 0 ∨ width ≤ 0 ∨ height ≤ 0))
    (h3 : fruits.any (fun f => eqIgnoreAsciiCase f.name (trim name)) = false) :
    (dispatch (.add name length width height) fruits saveOk).fruits =
      fruits ++ [⟨trim name, length, width, height⟩]
    ∧ (dispatch (.add name length width height) fruits saveOk).saved = true
    ∧ dispatch (.add name length width height) fruits true =
      ⟨fruits ++ [⟨trim name, length, width, height⟩], true,
       [.addedFruit (trim name)], true⟩ := by
  refine ⟨?_, ?_, ?_⟩ <;> cases saveOk <;> simp [dispatch, h1, h2, h3]

/-- C2 witness: `Add(" Kiwi ", 3, 2, 2)` on a one-item catalogue appends
Kiwi (trimmed) at the end and saves. -/
theorem add_appends_witness :
    dispatch (.add [' ', 'K', 'i', 'w', 'i', ' '] 3 2 2)
        [⟨['A', 'p', 'p', 'l', 'e'], 4, 3, 2⟩] true =
      ⟨[⟨['A', 'p', 'p', 'l', 'e'], 4, 3, 2⟩, ⟨['K', 'i', 'w', 'i'], 3, 2, 2⟩],
       true, [.addedFruit ['K', 'i', 'w', 'i']], true⟩ :=
  (add_appends _ _ _ _ _ true (by decide) (by decide) (by decide)).2.2

/-- C3: when the load fails — for any of the failure kinds (missing file,
read failure, content that is not valid JSON or not the Item shape) — no
error propagates: the warning is emitted, the default catalogue is used, and
the command is dispatched normally on it. -/
theorem load_failure_falls_back (e : LoadError) (cmd : Commands)
    (saveOk : Bool) :
    runMain (.error e) cmd saveOk =
      ⟨true, dispatch cmd initialise_fruit_catalogue saveOk⟩ := rfl

/-- C4: saving any catalogue at any path over any file system and then
loading that path succeeds and returns the same items, in the same order. -/
theorem save_load_round_trip (fruits : List FruitDimensions)
    (path : List Char) (fs : FS) :
    load_catalogue (save_catalogue fruits path fs) path = .ok fruits := by
  simp [load_catalogue, save_catalogue, catalogueToJson, catalogueFromJson,
    fruitsFromJsonList_map]

/-- C5: Remove rejects an empty trimmed name with a message and does nothing;
otherwise it removes exactly the items whose name matches the trimmed name
case-insensitively (duplicates included — membership in the result is
membership among the non-matching items); when the count changed it saves and
reports success, and when it did not it reports not-found and saves nothing. -/
theorem remove_behaviour (fruits : List FruitDimensions) (name : List Char)
    (saveOk : Bool) :
    ((trim name).isEmpty = true →
      dispatch (.remove name) fruits saveOk =
        ⟨fruits, false, [.nameMustNotBeEmpty], true⟩)
    ∧ ((trim name).isEmpty = false →
      (fruits.filter (fun f => !eqIgnoreAsciiCase f.name (trim name))).length ≠
        fruits.length →
      dispatch (.remove name) fruits true =
        ⟨fruits.filter (fun f => !eqIgnoreAsciiCase f.name (trim name)), true,
         [.removedFruit (trim name)], true⟩)
    ∧ ((trim name).isEmpty = false →
      (fruits.filter (fun f => !eqIgnoreAsciiCase f.name (trim name))).length =
        fruits.length →
      dispatch (.remove name) fruits saveOk =
        ⟨fruits, false, [.removeNotFound (trim name)], true⟩)
    ∧ ((trim name).isEmpty = false → ∀ f : FruitDimensions,
      f ∈ (dispatch (.remove name) fruits saveOk).fruits ↔
        f ∈ fruits ∧ eqIgnoreAsciiCase f.name (trim name) = false) := by
  refine ⟨fun h1 => ?_, fun h1 h2 => ?_, fun h1 h2 => ?_, fun h1 f => ?_⟩
  · simp [dispatch, h1]
  · simp [dispatch, h1, h2]
  · simp [dispatch, h1, h2]
  · by_cases hlen :
      (fruits.filter (fun f => !eqIgnoreAsciiCase f.name (trim name))).length =
        fruits.length
    · have hfil :
          fruits.filter (fun f => !eqIgnoreAsciiCase f.name (trim name)) =
            fruits :=
        (List.filter_sublist _).eq_of_length hlen
      have hall : ∀ g ∈ fruits, eqIgnoreAsciiCase g.name (trim name) = false := by
        intro g hg
        have hmem :
            g ∈ fruits.filter (fun f => !eqIgnoreAsciiCase f.name (trim name)) := by
          rw [hfil]
          exact hg
        simpa using (List.mem_filter.mp hmem).2
      simp only [dispatch, h1, Bool.false_eq_true, if_false, hlen, ne_eq,
        not_true_eq_false]
      simpa using fun hf => hall f hf
    · cases saveOk <;>
        · simp only [dispatch, h1, Bool.false_eq_true, if_false, hlen, ne_eq,
            not_false_eq_true, if_true]
          simp [List.mem_filter]

/-- C5 witness: `Remove("banana")` on the default catalogue (which holds
"Banana") removes exactly that entry and saves; the same command on the
resulting catalogue reports not-found and saves nothing. -/
theorem remove_behaviour_witness :
    (dispatch (.remove ['b', 'a', 'n', 'a', 'n', 'a'])
        initialise_fruit_catalogue true =
      ⟨[⟨['O', 'r', 'a', 'n', 'g', 'e'], 5, 3, 2⟩,
        ⟨['A', 'p', 'p', 'l', 'e'], 4, 5/2, 3/2⟩,
        ⟨['P', 'e', 'a', 'r'], 6, 7/2, 5/2⟩], true,
       [.removedFruit ['b', 'a', 'n', 'a', 'n', 'a']], true⟩)
    ∧ (dispatch (.remove ['b', 'a', 'n', 'a', 'n', 'a'])
        [⟨['O', 'r', 'a', 'n', 'g', 'e'], 5, 3, 2⟩,
         ⟨['A', 'p', 'p', 'l', 'e'], 4, 5/2, 3/2⟩,
         ⟨['P', 'e', 'a', 'r'], 6, 7/2, 5/2⟩] true =
      ⟨[⟨['O', 'r', 'a', 'n', 'g', 'e'], 5, 3, 2⟩,
        ⟨['A', 'p', 'p', 'l', 'e'], 4, 5/2, 3/2⟩,
        ⟨['P', 'e', 'a', 'r'], 6, 7/2, 5/2⟩], false,
       [.removeNotFound ['b', 'a', 'n', 'a', 'n', 'a']], true⟩) :=
  ⟨(remove_behaviour _ _ true).2.1 (by decide) (by decide),
   (remove_behaviour _ _ true).2.2.1 (by decide) (by decide)⟩

/-- C6: Get looks the name up case-insensitively without mutating or saving
and exits successfully: either the catalogue splits around a first match —
no earlier item matches — whose name, dimensions and volume are reported, or
no item matches and the not-found message is reported. -/
theorem get_lookup (fruits : List FruitDimensions) (name : List Char)
    (saveOk : Bool) :
    (dispatch (.get name) fruits saveOk).fruits = fruits
    ∧ (dispatch (.get name) fruits saveOk).saved = false
    ∧ (dispatch (.get name) fruits saveOk).exitOk = true
    ∧ ((∃ pre f post, fruits = pre ++ f :: post
          ∧ eqIgnoreAsciiCase f.name name = true
          ∧ (∀ g ∈ pre, eqIgnoreAsciiCase g.name name = false)
          ∧ (dispatch (.get name) fruits saveOk).messages =
              [.fruitInfo f.name f.length f.width f.height f.volume])
        ∨ ((∀ f ∈ fruits, eqIgnoreAsciiCase f.name name = false)
          ∧ (dispatch (.get name) fruits saveOk).messages =
              [.fruitNotFound name])) := by
  cases hf : fruits.find? (fun f => eqIgnoreAsciiCase f.name name) with
  | none =>
      have hnone := List.find?_eq_none.mp hf
      refine ⟨by simp [dispatch, hf], by simp [dispatch, hf],
        by simp [dispatch, hf], Or.inr ⟨fun f hfm => ?_, by simp [dispatch, hf]⟩⟩
      simpa using hnone f hfm
  | some f =>
      obtain ⟨hp, pre, post, heq, hpre⟩ := List.find?_eq_some.mp hf
      exact ⟨by simp [dispatch, hf], by simp [dispatch, hf],
        by simp [dispatch, hf],
        Or.inl ⟨pre, f, post, heq, hp, fun g hg => by simpa using hpre g hg,
          by simp [dispatch, hf, display_fruit_info]⟩⟩

/-- C7: every rejected Add — empty trimmed name, a non-positive dimension, or
a case-insensitive duplicate — is a no-op: the catalogue is unchanged, no
save happens, the process exits successfully, and exactly one of the three
rejection messages is printed. -/
theorem add_rejection_no_op (fruits : List FruitDimensions) (name : List Char)
    (length width height : ℚ) (saveOk : Bool)
    (h : (trim name).isEmpty = true ∨ (length ≤ 0 ∨ width ≤ 0 ∨ height ≤ 0) ∨
      fruits.any (fun f => eqIgnoreAsciiCase f.name (trim name)) = true) :
    (dispatch (.add name length width height) fruits saveOk).fruits = fruits
    ∧ (dispatch (.add name length width height) fruits saveOk).saved = false
    ∧ (dispatch (.add name length width height) fruits saveOk).exitOk = true
    ∧ ((dispatch (.add name length width height) fruits saveOk).messages =
        [.nameMustNotBeEmpty]
      ∨ (dispatch (.add name length width height) fruits saveOk).messages =
        [.dimensionsMustBePositive]
      ∨ (dispatch (.add name length width height) fruits saveOk).messages =
        [.fruitAlreadyExists (trim name)]) := by
  by_cases h1 : (trim name).isEmpty = true
  · simp [dispatch, h1]
  · have h1f : (trim name).isEmpty = false := by simpa using h1
    by_cases h2 : length ≤ 0 ∨ width ≤ 0 ∨ height ≤ 0
    · simp [dispatch, h1f, h2]
    · have h3 : fruits.any (fun f => eqIgnoreAsciiCase f.name (trim name)) =
          true := by
        rcases h with h | h | h
        · exact absurd h h1
        · exact absurd h h2
        · exact h
      simp [dispatch, h1f, h2, h3]

/-- C7 witness: the duplicate rejection `Add("aPPle", 1, 1, 1)` against a
catalogue holding "Apple" leaves everything unchanged and exits 0. -/
theorem add_rejection_no_op_witness :
    (dispatch (.add ['a', 'P', 'P', 'l', 'e'] 1 1 1)
        [⟨['A', 'p', 'p', 'l', 'e'], 4, 3, 2⟩] true).fruits =
      [⟨['A', 'p', 'p', 'l', 'e'], 4, 3, 2⟩]
    ∧ (dispatch (.add ['a', 'P', 'P', 'l', 'e'] 1 1 1)
        [⟨['A', 'p', 'p', 'l', 'e'], 4, 3, 2⟩] true).saved = false
    ∧ (dispatch (.add ['a', 'P', 'P', 'l', 'e'] 1 1 1)
        [⟨['A', 'p', 'p', 'l', 'e'], 4, 3, 2⟩] true).exitOk = true
    ∧ ((dispatch (.add ['a', 'P', 'P', 'l', 'e'] 1 1 1)
        [⟨['A', 'p', 'p', 'l', 'e'], 4, 3, 2⟩] true).messages =
        [.nameMustNotBeEmpty]
      ∨ (dispatch (.add ['a', 'P', 'P', 'l', 'e'] 1 1 1)
        [⟨['A', 'p', 'p', 'l', 'e'], 4, 3, 2⟩] true).messages =
        [.dimensionsMustBePositive]
      ∨ (dispatch (.add ['a', 'P', 'P', 'l', 'e'] 1 1 1)
        [⟨['A', 'p', 'p', 'l', 'e'], 4, 3, 2⟩] true).messages =
        [.fruitAlreadyExists (trim ['a', 'P', 'P', 'l', 'e'])]) :=
  add_rejection_no_op _ _ _ _ _ _ (by decide)

/-- C8: the default catalogue is exactly the four items Orange, Apple,
Banana, Pear in that order, with Orange = 5×3×2 and Apple = 4×2.5×1.5; the
volume of an item with dimensions 4×2.5×1.5 is 15; and volume is always the
plain product length × width × height, with no validation of the inputs. -/
theorem default_catalogue_and_volume :
    initialise_fruit_catalogue.map FruitDimensions.name =
      [['O', 'r', 'a', 'n', 'g', 'e'], ['A', 'p', 'p', 'l', 'e'],
       ['B', 'a', 'n', 'a', 'n', 'a'], ['P', 'e', 'a', 'r']]
    ∧ initialise_fruit_catalogue.length = 4
    ∧ initialise_fruit_catalogue[0]? =
        some ⟨['O', 'r', 'a', 'n', 'g', 'e'], 5, 3, 2⟩
    ∧ initialise_fruit_catalogue[1]? =
        some ⟨['A', 'p', 'p', 'l', 'e'], 4, 5/2, 3/2⟩
    ∧ (∀ n : List Char, FruitDimensions.volume ⟨n, 4, 5/2, 3/2⟩ = 15)
    ∧ (∀ d : FruitDimensions, d.volume = d.length * d.width * d.height) := by
  refine ⟨rfl, rfl, rfl, rfl, fun n => ?_, fun d => rfl⟩
  show (4 : ℚ) * (5/2) * (3/2) = 15
  norm_num

/-- C9: case-insensitive uniqueness of names is an invariant: the default
catalogue satisfies it, and dispatching any command — in particular any Add
or Remove — on a catalogue satisfying it yields a catalogue satisfying it. -/
theorem names_unique_invariant :
    namesUnique initialise_fruit_catalogue
    ∧ ∀ (cmd : Commands) (fruits : List FruitDimensions) (saveOk : Bool),
      namesUnique fruits → namesUnique (dispatch cmd fruits saveOk).fruits := by
  refine ⟨by decide, fun cmd fruits saveOk h => ?_⟩
  cases cmd with
  | list => exact h
  | get name =>
      cases hf : fruits.find? (fun f => eqIgnoreAsciiCase f.name name) with
      | none => simpa [dispatch, hf] using h
      | some f => simpa [dispatch, hf] using h
  | add name length width height =>
      by_cases h1 : (trim name).isEmpty = true
      · simpa [dispatch, h1] using h
      · have h1f : (trim name).isEmpty = false := by simpa using h1
        by_cases h2 : length ≤ 0 ∨ width ≤ 0 ∨ height ≤ 0
        · simpa [dispatch, h1f, h2] using h
        · by_cases h3 :
            fruits.any (fun f => eqIgnoreAsciiCase f.name (trim name)) = true
          · simpa [dispatch, h1f, h2, h3] using h
          · have h3f :
                fruits.any (fun f => eqIgnoreAsciiCase f.name (trim name)) =
                  false := by simpa using h3
            have hall : ∀ f ∈ fruits,
                eqIgnoreAsciiCase f.name (trim name) = false := by
              intro f hf
              simpa using List.any_eq_false.mp h3f f hf
            have hgoal :
                namesUnique (fruits ++ [⟨trim name, length, width, height⟩]) := by
              rw [namesUnique, List.pairwise_append]
              refine ⟨h, List.pairwise_singleton _ _, ?_⟩
              intro a ha b hb
              simp only [List.mem_singleton] at hb
              subst hb
              exact hall a ha
            cases saveOk <;> simpa [dispatch, h1f, h2, h3f] using hgoal
  | remove name =>
      by_cases h1 : (trim name).isEmpty = true
      · simpa [dispatch, h1] using h
      · have h1f : (trim name).isEmpty = false := by simpa using h1
        by_cases hlen :
            (fruits.filter
              (fun f => !eqIgnoreAsciiCase f.name (trim name))).length =
              fruits.length
        · simpa [dispatch, h1f, hlen] using h
        · have hgoal :
              namesUnique (fruits.filter
                (fun f => !eqIgnoreAsciiCase f.name (trim name))) :=
            List.Pairwise.sublist (List.filter_sublist _) h
          cases saveOk <;> simpa [dispatch, h1f, hlen] using hgoal

/-- C9 witness: the default catalogue has case-insensitively unique names,
and they stay unique after adding Kiwi. -/
theorem names_unique_invariant_witness :
    namesUnique (dispatch (.add ['K', 'i', 'w', 'i'] 3 2 2)
      initialise_fruit_catalogue true).fruits :=
  names_unique_invariant.2 _ _ _ (by decide)

/-- C10: Get does not trim its argument: on a catalogue whose stored names
carry no surrounding whitespace, a query with leading or trailing whitespace
reports not-found (even when its trimmed form would match an item
case-insensitively), with no mutation and no save. -/
theorem get_does_not_trim (fruits : List FruitDimensions) (name : List Char)
    (saveOk : Bool)
    (hstored : ∀ f ∈ fruits, trim f.name = f.name)
    (hpad : trim name ≠ name) :
    dispatch (.get name) fruits saveOk =
      ⟨fruits, false, [.fruitNotFound name], true⟩ := by
  have hnone : fruits.find? (fun f => eqIgnoreAsciiCase f.name name) = none := by
    refine List.find?_eq_none.mpr fun f hf hcase => ?_
    exact hpad (trim_eq_self_transfer
      ((eqIgnoreAsciiCase_iff_map _ _).1 hcase) (hstored f hf))
  simp [dispatch, hnone]

/-- C10 witness: `Get(" apple")` against the default catalogue — whose
"Apple" would match the trimmed query — reports not-found. -/
theorem get_does_not_trim_witness :
    dispatch (.get [' ', 'a', 'p', 'p', 'l', 'e']) initialise_fruit_catalogue
        true =
      ⟨initialise_fruit_catalogue, false,
       [.fruitNotFound [' ', 'a', 'p', 'p', 'l', 'e']], true⟩ :=
  get_does_not_trim _ _ _ (by decide) (by decide)

end Fruitdata
